import Mathlib

/-!
# LeetCodeProblemBrowser: loader and query engine

A shallow embedding of the logic of `src/components/LeetCodeProblemBrowser.jsx`:
the asynchronous loader `loadProblemsData` (lines 15-48) and the memoised query
`filteredAndSortedProblems` (lines 55-98).

Conventions of the embedding.

* A JavaScript string is a Lean `String` (well-formed Unicode text). The relational
  operators compare strings by UTF-16 code units, so `utf16` produces the code units
  and `unitsLt` is the lexicographic order on them. On well-formed text a substring in
  code units is a substring in characters, so `includes` works on characters.
* `toLowerCase` maps the letters `A`-`Z` to `a`-`z` and leaves every other character
  unchanged. All general theorems treat it as an unspecified function; only the
  evaluations on the (ASCII) scenario records depend on its values.
* A field that is absent from a record reads as `undefined`, modelled by `none`; calling
  a method on it raises a `TypeError`, modelled by `Except.error`.
* `Frequency` and `Acceptance Rate` are JSON numbers; finite numbers are compared exactly,
  so they are rationals.
* `Array.prototype.sort` is modelled by the insertion sort that calls
  `comparefn(earlier, later)` and moves the later element in front of the earlier one
  exactly when the result is positive. The properties of the sort step use two facts
  about it only: the result is a rearrangement of the input, and a record is placed
  before another only on the word of the comparator.
-/

namespace Questionnaire

/-! ## Values -/

/-- The error raised when a method is read from `undefined`. -/
inductive JSError
  | typeError
deriving DecidableEq, Repr

instance instDecidableEqExcept {ε α : Type} [DecidableEq ε] [DecidableEq α] :
    DecidableEq (Except ε α)
  | .ok a, .ok b =>
    if h : a = b then isTrue (by rw [h]) else isFalse (by intro h2; cases h2; exact h rfl)
  | .error a, .error b =>
    if h : a = b then isTrue (by rw [h]) else isFalse (by intro h2; cases h2; exact h rfl)
  | .ok _, .error _ => isFalse (by intro h; cases h)
  | .error _, .ok _ => isFalse (by intro h; cases h)

/-- One entry of a snapshot file. The text fields may be absent. -/
structure Problem where
  Title : Option String
  Difficulty : Option String
  Frequency : ℚ
  AcceptanceRate : ℚ
  Topics : Option String
  Link : String
deriving DecidableEq

/-- Lower-casing of a string, character by character. -/
def lowerString (s : String) : String :=
  ⟨s.data.map Char.toLower⟩

/-- The call `x.toLowerCase()` where `x` was read from a record field. -/
def toLowerCase : Option String → Except JSError String
  | some s => .ok (lowerString s)
  | none => .error .typeError

/-- The call `s.includes(t)`: `t` occurs in `s` as a contiguous substring. -/
def includes (s t : String) : Bool :=
  s.data.tails.any (fun u => t.data.isPrefixOf u)

/-- UTF-16 code units of one character. -/
def charUnits (c : Char) : List Nat :=
  if c.toNat < 65536 then [c.toNat]
  else [55296 + (c.toNat - 65536) / 1024, 56320 + (c.toNat - 65536) % 1024]

/-- UTF-16 code units of a string. -/
def utf16 (s : String) : List Nat :=
  s.data.flatMap charUnits

/-- Lexicographic comparison of code-unit sequences. -/
def unitsLt : List Nat → List Nat → Bool
  | _, [] => false
  | [], _ :: _ => true
  | x :: xs, y :: ys => decide (x < y) || (decide (x = y) && unitsLt xs ys)

/-- The values the comparator reads: a number, a string (as code units) or `undefined`. -/
inductive JSValue
  | undefined
  | number (q : ℚ)
  | string (units : List Nat)
deriving DecidableEq

/-- The operator `<` on the values above. A comparison with `undefined` is false. Both
operands of the comparator come from the same field, so a number never meets a string. -/
def JSValue.lt : JSValue → JSValue → Bool
  | .number x, .number y => decide (x < y)
  | .string s, .string t => unitsLt s t
  | _, _ => false

/-! ## Array methods -/

/-- The method `Array.prototype.filter` with a predicate that may raise. -/
def arrayFilter {α : Type} (p : α → Except JSError Bool) : List α → Except JSError (List α)
  | [] => .ok []
  | x :: xs =>
    match p x with
    | .error e => .error e
    | .ok keep =>
      match arrayFilter p xs with
      | .error e => .error e
      | .ok rest => .ok (if keep then x :: rest else rest)

/-- Inner loop of the insertion sort. `sorted` is the already sorted prefix with its last
element first; `element` moves towards the front past every `tmp` with
`comparefn(tmp, element) > 0`. -/
def insertElement {α : Type} (comparefn : α → α → Except JSError Int) (element : α) :
    List α → Except JSError (List α)
  | [] => .ok [element]
  | tmp :: rest =>
    match comparefn tmp element with
    | .error e => .error e
    | .ok order =>
      if order > 0 then
        match insertElement comparefn element rest with
        | .error e => .error e
        | .ok r => .ok (tmp :: r)
      else .ok (element :: tmp :: rest)

/-- Outer loop of the insertion sort over the reversed sorted prefix. -/
def sortLoop {α : Type} (comparefn : α → α → Except JSError Int) :
    List α → List α → Except JSError (List α)
  | sorted, [] => .ok sorted
  | sorted, element :: rest =>
    match insertElement comparefn element sorted with
    | .error e => .error e
    | .ok sorted' => sortLoop comparefn sorted' rest

/-- The method `Array.prototype.sort(comparefn)`. -/
def arraySort {α : Type} (comparefn : α → α → Except JSError Int) (a : List α) :
    Except JSError (List α) :=
  match sortLoop comparefn [] a with
  | .error e => .error e
  | .ok sorted => .ok sorted.reverse

/-! ## Query engine (lines 55-98) -/

/-- Predicate of the search filter (lines 62-65). `||` does not read `Topics` when the
title already matches. -/
def matchesSearch (searchTerm : String) (problem : Problem) : Except JSError Bool :=
  match toLowerCase problem.Title with
  | .error e => .error e
  | .ok title =>
    if includes title (lowerString searchTerm) then .ok true
    else
      match toLowerCase problem.Topics with
      | .error e => .error e
      | .ok topics => .ok (includes topics (lowerString searchTerm))

/-- Search step (lines 60-66): skipped when `searchTerm` is the empty string. -/
def searchStep (searchTerm : String) (filtered : List Problem) : Except JSError (List Problem) :=
  if searchTerm ≠ "" then arrayFilter (matchesSearch searchTerm) filtered
  else .ok filtered

/-- Predicate of the difficulty filter (lines 70-72). -/
def matchesDifficulty (difficultyFilter : String) (problem : Problem) : Except JSError Bool :=
  match toLowerCase problem.Difficulty with
  | .error e => .error e
  | .ok difficulty => .ok (decide (difficulty = difficultyFilter))

/-- Difficulty step (lines 68-73): skipped when `difficultyFilter` is `'all'`. -/
def difficultyStep (difficultyFilter : String) (filtered : List Problem) :
    Except JSError (List Problem) :=
  if difficultyFilter ≠ "all" then arrayFilter (matchesDifficulty difficultyFilter) filtered
  else .ok filtered

/-- The value `aValue` / `bValue` the comparator reads from a record (lines 79-88). -/
def sortValue (sortBy : String) (problem : Problem) : Except JSError JSValue :=
  if sortBy = "frequency" then .ok (.number problem.Frequency)
  else if sortBy = "acceptance" then .ok (.number problem.AcceptanceRate)
  else if sortBy = "title" then
    match toLowerCase problem.Title with
    | .error e => .error e
    | .ok title => .ok (.string (utf16 title))
  else .ok .undefined

/-- The comparator passed to `sort` (lines 76-95). -/
def compareFn (sortBy sortOrder : String) (a b : Problem) : Except JSError Int :=
  match sortValue sortBy a with
  | .error e => .error e
  | .ok aValue =>
    match sortValue sortBy b with
    | .error e => .error e
    | .ok bValue =>
      if sortOrder = "desc" then .ok (if JSValue.lt aValue bValue then 1 else -1)
      else .ok (if JSValue.lt bValue aValue then 1 else -1)

/-- Sort step (lines 75-95). -/
def sortStep (sortBy sortOrder : String) (filtered : List Problem) :
    Except JSError (List Problem) :=
  arraySort (compareFn sortBy sortOrder) filtered

/-- The memoised query (lines 55-98). -/
def filteredAndSortedProblems (problemsData : List Problem)
    (searchTerm sortBy sortOrder difficultyFilter : String) : Except JSError (List Problem) :=
  if problemsData.length = 0 then .ok []
  else
    match searchStep searchTerm problemsData with
    | .error e => .error e
    | .ok filtered =>
      match difficultyStep difficultyFilter filtered with
      | .error e => .error e
      | .ok filtered => sortStep sortBy sortOrder filtered

/-! ## Scenario records -/

/-- First record of the scenario collection (acceptance rate 0.49). -/
def twoSum : Problem :=
  { Title := some "Two Sum", Difficulty := some "EASY", Frequency := 80,
    AcceptanceRate := { num := 49, den := 100, den_nz := by decide, reduced := by decide },
    Topics := some "Array, Hash Table", Link := "" }

/-- Second record of the scenario collection (acceptance rate 0.46). -/
def mergeIntervals : Problem :=
  { Title := some "Merge Intervals", Difficulty := some "MEDIUM", Frequency := 55,
    AcceptanceRate := { num := 23, den := 50, den_nz := by decide, reduced := by decide },
    Topics := some "Array, Sorting", Link := "" }

/-- The two-record scenario collection. -/
def scenario : List Problem := [twoSum, mergeIntervals]

/-! ## Loader (lines 15-53) -/

/-- The three data files the loader can import. -/
inductive Snapshot
  | days30
  | months3
  | months6
deriving DecidableEq, Repr

/-- The `switch` of lines 22-39: which file is imported for a time frame. -/
def snapshotFor (timeframe : String) : Snapshot :=
  if timeframe = "30" then .days30
  else if timeframe = "90" then .months3
  else if timeframe = "180" then .months6
  else .months6

/-- The component state the loader writes. -/
structure LoaderState where
  problemsData : List Problem
  loading : Bool
  error : Option String
deriving DecidableEq

/-- The values given to `useState` (lines 10-12). -/
def initialState : LoaderState :=
  { problemsData := [], loading := false, error := none }

/-- The synchronous head of `loadProblemsData` (lines 16-17). -/
def startLoad (s : LoaderState) : LoaderState :=
  { s with loading := true, error := none }

/-- The continuation of `loadProblemsData` after the `await` (lines 41-47). `result` is the
outcome of the import: the array exported by the module (an array is truthy, so
`data.default || data` is `data.default`), or the message of the error it rejected
with. -/
def finishLoad (timeframe : String) (result : Except String (List Problem))
    (s : LoaderState) : LoaderState :=
  match result with
  | .ok data => { s with problemsData := data, loading := false }
  | .error message =>
    { s with error := some ("Failed to load " ++ timeframe ++ " data: " ++ message),
             loading := false }

/-- A whole call of `loadProblemsData` with nothing interleaved. `importModule` is the
outcome of importing each data file. -/
def loadProblemsData (importModule : Snapshot → Except String (List Problem))
    (timeframe : String) (s : LoaderState) : LoaderState :=
  finishLoad timeframe (importModule (snapshotFor timeframe)) (startLoad s)

/-- A record carries the three text fields. -/
def Problem.complete (p : Problem) : Bool :=
  p.Title.isSome && p.Difficulty.isSome && p.Topics.isSome

/-- Lower-cased `s` is a substring of the lower-cased field. -/
def containsText (field : Option String) (s : String) : Prop :=
  match field with
  | some text => (lowerString s).data <:+: (lowerString text).data
  | none => False

instance containsTextDecidable (field : Option String) (s : String) :
    Decidable (containsText field s) :=
  match field with
  | some text => inferInstanceAs (Decidable ((lowerString s).data <:+: (lowerString text).data))
  | none => inferInstanceAs (Decidable False)

/-- The search criterion: the text is empty or occurs in the title or in the topics. -/
def SearchCriterion (s : String) (r : Problem) : Prop :=
  s = "" ∨ containsText r.Title s ∨ containsText r.Topics s

instance searchCriterionDecidable (s : String) (r : Problem) : Decidable (SearchCriterion s r) :=
  inferInstanceAs (Decidable (s = "" ∨ containsText r.Title s ∨ containsText r.Topics s))

/-- The key of a record under a sort key, `undefined` when it cannot be read. -/
def keyOf (sortBy : String) (p : Problem) : JSValue :=
  match sortValue sortBy p with
  | .ok v => v
  | .error _ => .undefined

/-- The records whose key can be read under `sortBy`. -/
def Readable (sortBy : String) (p : Problem) : Prop :=
  ∃ v, sortValue sortBy p = .ok v

/-- Two values are of the same kind, as the values read under one sort key are. -/
def SameKind (x y : JSValue) : Prop :=
  match x, y with
  | .undefined, .undefined => True
  | .number _, .number _ => True
  | .string _, .string _ => True
  | _, _ => False

/-- The records that pass both filters, for a collection of complete records. -/
def retained (C : List Problem) (s f : String) : List Problem :=
  if f = "all" then C.filter (fun r => decide (SearchCriterion s r))
  else (C.filter (fun r => decide (SearchCriterion s r))).filter
    (fun r => decide (r.Difficulty.map lowerString = some f))

/-- What a comparator must satisfy on the records `P` for the sort to order them by the
relation `R` (`R a b`: `a` has to come after `b`). -/
structure Orders {α : Type} (comparefn : α → α → Except JSError Int) (R : α → α → Prop)
    (P : α → Prop) : Prop where
  sound : ∀ a b, P a → P b → ∃ c, comparefn a b = .ok c ∧ (0 < c ↔ R a b)
  asymm : ∀ a b, P a → P b → R a b → ¬ R b a
  negtrans : ∀ a b c, P a → P b → P c → ¬ R a b → ¬ R b c → ¬ R a c

/-! ## Facts about the array methods -/

theorem jsError_eq (e : JSError) : e = JSError.typeError := by
  cases e; rfl

theorem includes_iff (s t : String) : includes s t = true ↔ t.data <:+: s.data := by
  unfold includes
  rw [List.any_eq_true]
  constructor
  · rintro ⟨u, hu, hp⟩
    rw [List.isPrefixOf_iff_prefix] at hp
    exact List.infix_iff_prefix_suffix.mpr ⟨u, hp, (List.mem_tails u s.data).mp hu⟩
  · intro h
    obtain ⟨u, hp, hs⟩ := List.infix_iff_prefix_suffix.mp h
    exact ⟨u, (List.mem_tails u s.data).mpr hs, List.isPrefixOf_iff_prefix.mpr hp⟩

theorem arrayFilter_of_forall {α : Type} (p : α → Except JSError Bool) (q : α → Bool) :
    ∀ l : List α, (∀ x ∈ l, p x = .ok (q x)) → arrayFilter p l = .ok (l.filter q)
  | [], _ => rfl
  | x :: xs, h => by
    have hx : p x = .ok (q x) := h x (List.mem_cons_self _ _)
    have ih := arrayFilter_of_forall p q xs (fun y hy => h y (List.mem_cons_of_mem _ hy))
    simp only [arrayFilter, hx, ih, List.filter_cons]

theorem arrayFilter_sublist {α : Type} (p : α → Except JSError Bool) :
    ∀ (l out : List α), arrayFilter p l = .ok out → out.Sublist l
  | [], out, h => by
    simp only [arrayFilter, Except.ok.injEq] at h
    subst h; exact List.Sublist.refl _
  | x :: xs, out, h => by
    simp only [arrayFilter] at h
    cases hx : p x with
    | error e => rw [hx] at h; cases h
    | ok keep =>
      rw [hx] at h
      cases hr : arrayFilter p xs with
      | error e => rw [hr] at h; cases h
      | ok rest =>
        rw [hr] at h
        simp only [Except.ok.injEq] at h
        have ih := arrayFilter_sublist p xs rest hr
        subst h
        cases keep
        · simpa using ih.cons x
        · simpa using ih.cons₂ x

theorem arrayFilter_error_of_mem {α : Type} (p : α → Except JSError Bool) :
    ∀ (l : List α) (x : α), x ∈ l → p x = .error .typeError →
      arrayFilter p l = .error .typeError
  | [], x, hx, _ => by cases hx
  | y :: ys, x, hx, hp => by
    simp only [arrayFilter]
    cases hy : p y with
    | error e => simp [jsError_eq e]
    | ok keep =>
      have hxy : x ∈ ys := by
        rcases List.mem_cons.mp hx with rfl | h
        · rw [hp] at hy; cases hy
        · exact h
      simp [arrayFilter_error_of_mem p ys x hxy hp]

theorem insertElement_spec {α : Type} {comparefn : α → α → Except JSError Int}
    {R : α → α → Prop} {P : α → Prop} (h : Orders comparefn R P) (element : α)
    (he : P element) :
    ∀ sorted : List α, (∀ x ∈ sorted, P x) → sorted.Pairwise (fun a b => ¬ R b a) →
      ∃ out, insertElement comparefn element sorted = .ok out ∧ out.Perm (element :: sorted) ∧
        out.Pairwise (fun a b => ¬ R b a)
  | [], _, _ => ⟨[element], rfl, List.Perm.refl _, List.pairwise_singleton _ _⟩
  | tmp :: rest, hP, hs => by
    have ht : P tmp := hP tmp (List.mem_cons_self _ _)
    have hrest : ∀ x ∈ rest, P x := fun x hx => hP x (List.mem_cons_of_mem _ hx)
    obtain ⟨c, hc, hcR⟩ := h.sound tmp element ht he
    rw [List.pairwise_cons] at hs
    by_cases hpos : 0 < c
    · obtain ⟨r, hr, hperm, hpw⟩ := insertElement_spec h element he rest hrest hs.2
      refine ⟨tmp :: r, ?_, ?_, ?_⟩
      · simp [insertElement, hc, hpos, hr]
      · exact (List.Perm.cons tmp hperm).trans (List.Perm.swap element tmp rest)
      · rw [List.pairwise_cons]
        refine ⟨fun z hz => ?_, hpw⟩
        rcases List.mem_cons.mp (hperm.subset hz) with rfl | hz'
        · exact h.asymm tmp z ht he (hcR.mp hpos)
        · exact hs.1 z hz'
    · refine ⟨element :: tmp :: rest, ?_, List.Perm.refl _, ?_⟩
      · simp [insertElement, hc, hpos]
      · rw [List.pairwise_cons]
        refine ⟨fun z hz => ?_, List.pairwise_cons.mpr hs⟩
        have hte : ¬ R tmp element := fun hR => hpos (hcR.mpr hR)
        rcases List.mem_cons.mp hz with rfl | hz'
        · exact hte
        · exact h.negtrans z tmp element (hrest z hz') ht he (hs.1 z hz') hte

theorem sortLoop_spec {α : Type} {comparefn : α → α → Except JSError Int}
    {R : α → α → Prop} {P : α → Prop} (h : Orders comparefn R P) :
    ∀ (rest sorted : List α), (∀ x ∈ sorted, P x) → (∀ x ∈ rest, P x) →
      sorted.Pairwise (fun a b => ¬ R b a) →
      ∃ out, sortLoop comparefn sorted rest = .ok out ∧ out.Perm (rest ++ sorted) ∧
        out.Pairwise (fun a b => ¬ R b a)
  | [], sorted, _, _, hs => ⟨sorted, rfl, by simp, hs⟩
  | element :: rest, sorted, hPs, hPr, hs => by
    have he : P element := hPr element (List.mem_cons_self _ _)
    obtain ⟨s1, h1, hperm1, hpw1⟩ := insertElement_spec h element he sorted hPs hs
    have hP1 : ∀ x ∈ s1, P x := by
      intro x hx
      rcases List.mem_cons.mp (hperm1.subset hx) with rfl | hx'
      · exact he
      · exact hPs x hx'
    obtain ⟨out, h2, hperm2, hpw2⟩ :=
      sortLoop_spec h rest s1 hP1 (fun x hx => hPr x (List.mem_cons_of_mem _ hx)) hpw1
    refine ⟨out, ?_, ?_, hpw2⟩
    · simp [sortLoop, h1, h2]
    · refine hperm2.trans ?_
      refine (List.Perm.append_left rest hperm1).trans ?_
      simp

theorem arraySort_spec {α : Type} {comparefn : α → α → Except JSError Int}
    {R : α → α → Prop} {P : α → Prop} (h : Orders comparefn R P) (a : List α)
    (hP : ∀ x ∈ a, P x) :
    ∃ out, arraySort comparefn a = .ok out ∧ out.Perm a ∧ out.Pairwise (fun x y => ¬ R x y) := by
  obtain ⟨s, hs, hperm, hpw⟩ :=
    sortLoop_spec h a [] (fun _ hx => by cases hx) hP List.Pairwise.nil
  refine ⟨s.reverse, ?_, ?_, ?_⟩
  · simp [arraySort, hs]
  · exact (List.reverse_perm s).trans (by simpa using hperm)
  · exact List.pairwise_reverse.mpr hpw

/-- Whatever the comparator does, a sort that returns has rearranged its input. -/
theorem insertElement_perm {α : Type} (comparefn : α → α → Except JSError Int) (element : α) :
    ∀ (sorted out : List α), insertElement comparefn element sorted = .ok out →
      out.Perm (element :: sorted)
  | [], out, h => by
    simp only [insertElement, Except.ok.injEq] at h
    subst h; exact List.Perm.refl _
  | tmp :: rest, out, h => by
    simp only [insertElement] at h
    cases hc : comparefn tmp element with
    | error e => rw [hc] at h; cases h
    | ok c =>
      rw [hc] at h
      by_cases hpos : c > 0
      · simp only [hpos, if_true] at h
        cases hr : insertElement comparefn element rest with
        | error e => rw [hr] at h; cases h
        | ok r =>
          rw [hr] at h
          simp only [Except.ok.injEq] at h
          subst h
          exact (List.Perm.cons tmp (insertElement_perm comparefn element rest r hr)).trans
            (List.Perm.swap element tmp rest)
      · simp only [hpos, if_false, Except.ok.injEq] at h
        subst h; exact List.Perm.refl _

theorem sortLoop_perm {α : Type} (comparefn : α → α → Except JSError Int) :
    ∀ (rest sorted out : List α), sortLoop comparefn sorted rest = .ok out →
      out.Perm (rest ++ sorted)
  | [], sorted, out, h => by
    simp only [sortLoop, Except.ok.injEq] at h
    subst h; simp
  | element :: rest, sorted, out, h => by
    simp only [sortLoop] at h
    cases h1 : insertElement comparefn element sorted with
    | error e => rw [h1] at h; cases h
    | ok s1 =>
      rw [h1] at h
      have hp1 := insertElement_perm comparefn element sorted s1 h1
      refine (sortLoop_perm comparefn rest s1 out h).trans ?_
      refine (List.Perm.append_left rest hp1).trans ?_
      simp

theorem arraySort_perm {α : Type} (comparefn : α → α → Except JSError Int) (a out : List α)
    (h : arraySort comparefn a = .ok out) : out.Perm a := by
  unfold arraySort at h
  cases hs : sortLoop comparefn [] a with
  | error e => rw [hs] at h; cases h
  | ok s =>
    rw [hs] at h
    simp only [Except.ok.injEq] at h
    subst h
    exact (List.reverse_perm s).trans (by simpa using sortLoop_perm comparefn a [] s hs)

/-! ## The order on keys -/

theorem unitsLt_asymm : ∀ a b : List Nat, unitsLt a b = true → unitsLt b a = false
  | _, [], h => by simp [unitsLt] at h
  | [], _ :: _, _ => by simp [unitsLt]
  | x :: xs, y :: ys, h => by
    simp only [unitsLt, Bool.or_eq_true, Bool.and_eq_true, decide_eq_true_eq] at h
    simp only [unitsLt, Bool.or_eq_false_iff, Bool.and_eq_false_iff, decide_eq_false_iff_not]
    rcases h with h | ⟨h1, h2⟩
    · exact ⟨by omega, Or.inl (by omega)⟩
    · exact ⟨by omega, Or.inr (unitsLt_asymm xs ys h2)⟩

theorem unitsLt_cotrans : ∀ a b c : List Nat, unitsLt a c = true →
    unitsLt a b = true ∨ unitsLt b c = true
  | _, _, [], h => by simp [unitsLt] at h
  | [], [], _ :: _, h => Or.inr h
  | [], _ :: _, _ :: _, _ => Or.inl (by simp [unitsLt])
  | _ :: _, [], _ :: _, _ => Or.inr (by simp [unitsLt])
  | x :: xs, y :: ys, z :: zs, h => by
    simp only [unitsLt, Bool.or_eq_true, Bool.and_eq_true, decide_eq_true_eq] at h ⊢
    rcases h with h | ⟨h1, h2⟩
    · by_cases hxy : x < y
      · exact Or.inl (Or.inl hxy)
      · exact Or.inr (Or.inl (by omega))
    · by_cases hxy : x < y
      · exact Or.inl (Or.inl hxy)
      · by_cases hyx : y < x
        · exact Or.inr (Or.inl (by omega))
        · have hxy' : x = y := by omega
          rcases unitsLt_cotrans xs ys zs h2 with h3 | h3
          · exact Or.inl (Or.inr ⟨hxy', h3⟩)
          · exact Or.inr (Or.inr ⟨by omega, h3⟩)

theorem jsLt_asymm (x y : JSValue) (h : JSValue.lt x y = true) : JSValue.lt y x = false := by
  cases x with
  | undefined => cases y <;> simp [JSValue.lt] at h
  | number p =>
    cases y with
    | undefined => simp [JSValue.lt] at h
    | string t => simp [JSValue.lt] at h
    | number q =>
      simp only [JSValue.lt, decide_eq_true_eq, decide_eq_false_iff_not] at h ⊢
      exact not_lt.mpr (le_of_lt h)
  | string s =>
    cases y with
    | undefined => simp [JSValue.lt] at h
    | number q => simp [JSValue.lt] at h
    | string t => exact unitsLt_asymm _ _ h

theorem jsLt_negtrans (x y z : JSValue) (hxy : SameKind x y) (hyz : SameKind y z)
    (h1 : JSValue.lt x y = false) (h2 : JSValue.lt y z = false) : JSValue.lt x z = false := by
  cases x <;> cases y <;> simp only [SameKind] at hxy <;>
    cases z <;> simp only [SameKind] at hyz <;> simp only [JSValue.lt] at h1 h2 ⊢
  · simp only [decide_eq_false_iff_not, not_lt] at h1 h2 ⊢
    exact le_trans h2 h1
  · cases h : unitsLt _ _ with
    | false => rfl
    | true =>
      rcases unitsLt_cotrans _ _ _ h with h3 | h3
      · rw [h1] at h3; cases h3
      · rw [h2] at h3; cases h3

theorem sortValue_sameKind (sortBy : String) (a b : Problem) (va vb : JSValue)
    (ha : sortValue sortBy a = .ok va) (hb : sortValue sortBy b = .ok vb) : SameKind va vb := by
  unfold sortValue at ha hb
  by_cases h1 : sortBy = "frequency"
  · rw [if_pos h1] at ha hb
    cases ha; cases hb; trivial
  · rw [if_neg h1] at ha hb
    by_cases h2 : sortBy = "acceptance"
    · rw [if_pos h2] at ha hb
      cases ha; cases hb; trivial
    · rw [if_neg h2] at ha hb
      by_cases h3 : sortBy = "title"
      · rw [if_pos h3] at ha hb
        cases hta : toLowerCase a.Title with
        | error e => rw [hta] at ha; cases ha
        | ok ta =>
          cases htb : toLowerCase b.Title with
          | error e => rw [htb] at hb; cases hb
          | ok tb =>
            rw [hta] at ha; rw [htb] at hb
            cases ha; cases hb; trivial
      · rw [if_neg h3] at ha hb
        cases ha; cases hb; trivial

theorem readable_keyOf {sortBy : String} {p : Problem} (h : Readable sortBy p) :
    sortValue sortBy p = .ok (keyOf sortBy p) := by
  obtain ⟨v, hv⟩ := h
  simp [keyOf, hv]

theorem readable_of_ne_title (sortBy : String) (p : Problem) (h : sortBy ≠ "title") :
    Readable sortBy p := by
  unfold Readable sortValue
  by_cases h1 : sortBy = "frequency"
  · rw [if_pos h1]; exact ⟨_, rfl⟩
  · rw [if_neg h1]
    by_cases h2 : sortBy = "acceptance"
    · rw [if_pos h2]; exact ⟨_, rfl⟩
    · rw [if_neg h2, if_neg h]; exact ⟨_, rfl⟩

theorem readable_of_title (sortBy : String) (p : Problem) (h : p.Title.isSome = true) :
    Readable sortBy p := by
  by_cases h3 : sortBy = "title"
  · cases ht : p.Title with
    | none => rw [ht] at h; cases h
    | some t =>
      unfold Readable sortValue
      rw [h3, ht]
      exact ⟨_, rfl⟩
  · exact readable_of_ne_title sortBy p h3

theorem keyOf_sameKind (sortBy : String) (a b : Problem) (ha : Readable sortBy a)
    (hb : Readable sortBy b) : SameKind (keyOf sortBy a) (keyOf sortBy b) :=
  sortValue_sameKind sortBy a b _ _ (readable_keyOf ha) (readable_keyOf hb)

theorem compareFn_desc (sortBy : String) (a b : Problem) (ha : Readable sortBy a)
    (hb : Readable sortBy b) :
    compareFn sortBy "desc" a b =
      .ok (if JSValue.lt (keyOf sortBy a) (keyOf sortBy b) then 1 else -1) := by
  simp [compareFn, readable_keyOf ha, readable_keyOf hb]

theorem compareFn_asc (sortBy sortOrder : String) (a b : Problem) (ho : sortOrder ≠ "desc")
    (ha : Readable sortBy a) (hb : Readable sortBy b) :
    compareFn sortBy sortOrder a b =
      .ok (if JSValue.lt (keyOf sortBy b) (keyOf sortBy a) then 1 else -1) := by
  simp [compareFn, readable_keyOf ha, readable_keyOf hb, ho]

theorem orders_desc (sortBy : String) :
    Orders (compareFn sortBy "desc")
      (fun a b => JSValue.lt (keyOf sortBy a) (keyOf sortBy b) = true) (Readable sortBy) where
  sound a b ha hb := by
    refine ⟨_, compareFn_desc sortBy a b ha hb, ?_⟩
    cases JSValue.lt (keyOf sortBy a) (keyOf sortBy b) <;> simp
  asymm a b _ _ h := by
    rw [jsLt_asymm _ _ h]; simp
  negtrans a b c ha hb hc h1 h2 := by
    simp only [Bool.not_eq_true] at h1 h2 ⊢
    exact jsLt_negtrans _ _ _ (keyOf_sameKind sortBy a b ha hb) (keyOf_sameKind sortBy b c hb hc)
      h1 h2

theorem orders_asc (sortBy sortOrder : String) (ho : sortOrder ≠ "desc") :
    Orders (compareFn sortBy sortOrder)
      (fun a b => JSValue.lt (keyOf sortBy b) (keyOf sortBy a) = true) (Readable sortBy) where
  sound a b ha hb := by
    refine ⟨_, compareFn_asc sortBy sortOrder a b ho ha hb, ?_⟩
    cases JSValue.lt (keyOf sortBy b) (keyOf sortBy a) <;> simp
  asymm a b _ _ h := by
    rw [jsLt_asymm _ _ h]; simp
  negtrans a b c ha hb hc h1 h2 := by
    simp only [Bool.not_eq_true] at h1 h2 ⊢
    exact jsLt_negtrans _ _ _ (keyOf_sameKind sortBy c b hc hb) (keyOf_sameKind sortBy b a hb ha)
      h2 h1

/-- The sort step on records whose key can be read, descending. -/
theorem sortStep_desc (sortBy : String) (l : List Problem) (hl : ∀ p ∈ l, Readable sortBy p) :
    ∃ out, sortStep sortBy "desc" l = .ok out ∧ out.Perm l ∧
      out.Pairwise (fun a b => JSValue.lt (keyOf sortBy a) (keyOf sortBy b) = false) := by
  obtain ⟨out, h1, h2, h3⟩ := arraySort_spec (orders_desc sortBy) l hl
  exact ⟨out, h1, h2, h3.imp (fun h => by simpa using h)⟩

/-- The sort step on records whose key can be read, ascending. -/
theorem sortStep_asc (sortBy sortOrder : String) (ho : sortOrder ≠ "desc") (l : List Problem)
    (hl : ∀ p ∈ l, Readable sortBy p) :
    ∃ out, sortStep sortBy sortOrder l = .ok out ∧ out.Perm l ∧
      out.Pairwise (fun a b => JSValue.lt (keyOf sortBy b) (keyOf sortBy a) = false) := by
  obtain ⟨out, h1, h2, h3⟩ := arraySort_spec (orders_asc sortBy sortOrder ho) l hl
  exact ⟨out, h1, h2, h3.imp (fun h => by simpa using h)⟩

/-! ## Facts about the query steps -/

theorem matchesSearch_of_present (s : String) (r : Problem) (h1 : r.Title.isSome = true)
    (h2 : r.Topics.isSome = true) :
    matchesSearch s r = .ok (decide (containsText r.Title s ∨ containsText r.Topics s)) := by
  cases ht : r.Title with
  | none => rw [ht] at h1; cases h1
  | some title =>
    cases hp : r.Topics with
    | none => rw [hp] at h2; cases h2
    | some topics =>
      simp only [matchesSearch, ht, hp, toLowerCase, containsText, ← includes_iff]
      cases includes (lowerString title) (lowerString s) <;>
        cases includes (lowerString topics) (lowerString s) <;> simp

theorem searchStep_of_present (C : List Problem) (s : String)
    (hC : ∀ r ∈ C, r.Title.isSome = true ∧ r.Topics.isSome = true) :
    searchStep s C = .ok (C.filter (fun r => decide (SearchCriterion s r))) := by
  unfold searchStep
  by_cases hs : s = ""
  · simp [hs, SearchCriterion]
  · rw [if_pos hs]
    rw [arrayFilter_of_forall _ (fun r => decide (containsText r.Title s ∨ containsText r.Topics s))
      C (fun r hr => matchesSearch_of_present s r (hC r hr).1 (hC r hr).2)]
    simp [SearchCriterion, hs]

theorem searchStep_sublist (C out : List Problem) (s : String) (h : searchStep s C = .ok out) :
    out.Sublist C := by
  unfold searchStep at h
  by_cases hs : s = ""
  · rw [if_neg (by simpa using hs)] at h
    cases h; exact List.Sublist.refl _
  · rw [if_pos hs] at h
    exact arrayFilter_sublist _ _ _ h

theorem matchesDifficulty_of_present (f : String) (r : Problem)
    (h : r.Difficulty.isSome = true) :
    matchesDifficulty f r = .ok (decide (r.Difficulty.map lowerString = some f)) := by
  cases hd : r.Difficulty with
  | none => rw [hd] at h; cases h
  | some d => simp [matchesDifficulty, hd, toLowerCase]

theorem difficultyStep_of_present (C : List Problem) (f : String)
    (hC : ∀ r ∈ C, r.Difficulty.isSome = true) :
    difficultyStep f C =
      .ok (if f = "all" then C
           else C.filter (fun r => decide (r.Difficulty.map lowerString = some f))) := by
  unfold difficultyStep
  by_cases hf : f = "all"
  · simp [hf]
  · rw [if_pos hf, if_neg hf]
    exact arrayFilter_of_forall _ _ C (fun r hr => matchesDifficulty_of_present f r (hC r hr))

theorem difficultyStep_sublist (C out : List Problem) (f : String)
    (h : difficultyStep f C = .ok out) : out.Sublist C := by
  unfold difficultyStep at h
  by_cases hf : f = "all"
  · rw [if_neg (by simpa using hf)] at h
    cases h; exact List.Sublist.refl _
  · rw [if_pos hf] at h
    exact arrayFilter_sublist _ _ _ h

theorem retained_sublist (C : List Problem) (s f : String) : (retained C s f).Sublist C := by
  unfold retained
  by_cases hf : f = "all"
  · rw [if_pos hf]; exact List.filter_sublist _
  · rw [if_neg hf]; exact (List.filter_sublist _).trans (List.filter_sublist _)

theorem complete_fields {r : Problem} (h : r.complete = true) :
    r.Title.isSome = true ∧ r.Difficulty.isSome = true ∧ r.Topics.isSome = true := by
  simpa [Problem.complete, and_assoc] using h

theorem query_of_complete (C : List Problem) (s k o f : String)
    (hC : ∀ r ∈ C, r.complete = true) :
    filteredAndSortedProblems C s k o f = sortStep k o (retained C s f) := by
  unfold filteredAndSortedProblems
  by_cases hlen : C.length = 0
  · have : C = [] := List.length_eq_zero.mp hlen
    subst this
    simp [retained, sortStep, arraySort, sortLoop]
  · rw [if_neg hlen]
    rw [searchStep_of_present C s (fun r hr => ⟨(complete_fields (hC r hr)).1,
      (complete_fields (hC r hr)).2.2⟩)]
    have hD : ∀ r ∈ C.filter (fun r => decide (SearchCriterion s r)),
        r.Difficulty.isSome = true :=
      fun r hr => (complete_fields (hC r (List.mem_of_mem_filter hr))).2.1
    simp only []
    rw [difficultyStep_of_present _ f hD]
    simp only [retained]

theorem retained_readable (C : List Problem) (s k f : String)
    (hC : ∀ r ∈ C, r.complete = true) : ∀ p ∈ retained C s f, Readable k p :=
  fun p hp => readable_of_title k p
    (complete_fields (hC p ((retained_sublist C s f).subset hp))).1

theorem query_sublist_perm (C : List Problem) (s k o f : String) (out : List Problem)
    (h : filteredAndSortedProblems C s k o f = .ok out) :
    ∃ kept, kept.Sublist C ∧ out.Perm kept := by
  unfold filteredAndSortedProblems at h
  by_cases hlen : C.length = 0
  · rw [if_pos hlen] at h
    cases h
    exact ⟨[], List.nil_sublist _, List.Perm.refl _⟩
  · rw [if_neg hlen] at h
    cases h1 : searchStep s C with
    | error e => rw [h1] at h; cases h
    | ok l1 =>
      rw [h1] at h
      simp only [] at h
      cases h2 : difficultyStep f l1 with
      | error e => rw [h2] at h; cases h
      | ok l2 =>
        rw [h2] at h
        simp only [] at h
        exact ⟨l2, (difficultyStep_sublist l1 l2 f h2).trans (searchStep_sublist C l1 s h1),
          arraySort_perm _ _ _ h⟩

/-- C4. The query is a projection. Whenever it returns a sequence, that sequence is a
rearrangement of a sub-sequence of the collection: every record occurs in it at most as
often as in the collection, every record of it is a record of the collection, and its
length does not exceed the length of the collection. On collections of complete records
it does return a sequence. -/
theorem query_projection (C : List Problem) (s k o f : String) :
    ((∀ r ∈ C, r.complete = true) → ∃ out, filteredAndSortedProblems C s k o f = .ok out) ∧
    (∀ out, filteredAndSortedProblems C s k o f = .ok out →
      (∃ kept, kept.Sublist C ∧ out.Perm kept) ∧ (∀ r, out.count r ≤ C.count r) ∧
      (∀ r ∈ out, r ∈ C) ∧ out.length ≤ C.length) := by
  constructor
  · intro hC
    rw [query_of_complete C s k o f hC]
    by_cases ho : o = "desc"
    · obtain ⟨out, h, _⟩ := sortStep_desc k _ (retained_readable C s k f hC)
      exact ⟨out, by rw [ho]; exact h⟩
    · obtain ⟨out, h, _⟩ := sortStep_asc k o ho _ (retained_readable C s k f hC)
      exact ⟨out, h⟩
  · intro out h
    obtain ⟨kept, hsub, hperm⟩ := query_sublist_perm C s k o f out h
    refine ⟨⟨kept, hsub, hperm⟩, fun r => ?_, fun r hr => ?_, ?_⟩
    · rw [hperm.count_eq]; exact hsub.count_le r
    · exact hsub.subset (hperm.subset hr)
    · rw [hperm.length_eq]; exact hsub.length_le

/-- Instance of C4 on the scenario collection. -/
theorem query_projection_witness :
    (∀ r ∈ scenario, r.complete = true) ∧
    filteredAndSortedProblems scenario "sum" "title" "asc" "easy" = .ok [twoSum] ∧
    (∃ out, filteredAndSortedProblems scenario "sum" "title" "asc" "easy" = .ok out) ∧
    ((∃ kept, kept.Sublist scenario ∧ [twoSum].Perm kept) ∧
      (∀ r, [twoSum].count r ≤ scenario.count r) ∧
      (∀ r ∈ [twoSum], r ∈ scenario) ∧ [twoSum].length ≤ scenario.length) :=
  ⟨by decide, by decide,
    (query_projection scenario "sum" "title" "asc" "easy").1 (by decide),
    (query_projection scenario "sum" "title" "asc" "easy").2 [twoSum] (by decide)⟩

/-- C5, as stated, fails: a record without `Title` is not read as the empty string. With
the search text `array`, which occurs in the topics of the record, the query raises
instead of returning the record. -/
theorem query_missing_title_counterexample :
    ({ twoSum with Title := none } : Problem).Topics = some "Array, Hash Table" ∧
    includes (lowerString "Array, Hash Table") (lowerString "array") = true ∧
    filteredAndSortedProblems [{ twoSum with Title := none }] "array" "frequency" "desc" "all" =
      .error .typeError := by
  decide

/-- C5, amended. The query returns a sequence for every search text, difficulty filter,
sort key and direction when every record carries `Title`, `Difficulty` and `Topics`. A
missing field has no default: a record without `Title` makes the query raise whenever the
search text is non-empty, and a record without `Difficulty` makes it raise whenever the
search text is empty and the difficulty filter is not `all`. With the empty search text,
the filter `all` and a sort key other than `title` no text field is read, and the query
returns a sequence for any records. -/
theorem query_total_on_complete (C : List Problem) (s k o f : String) :
    ((∀ r ∈ C, r.complete = true) → ∃ out, filteredAndSortedProblems C s k o f = .ok out) ∧
    (s ≠ "" → (∃ r ∈ C, r.Title = none) →
      filteredAndSortedProblems C s k o f = .error .typeError) ∧
    (s = "" → f ≠ "all" → (∃ r ∈ C, r.Difficulty = none) →
      filteredAndSortedProblems C s k o f = .error .typeError) ∧
    (s = "" → f = "all" → k ≠ "title" →
      ∃ out, filteredAndSortedProblems C s k o f = .ok out) := by
  refine ⟨fun hC => ?_, fun hs hr => ?_, fun hs hf hr => ?_, fun hs hf hk => ?_⟩
  · rw [query_of_complete C s k o f hC]
    by_cases ho : o = "desc"
    · obtain ⟨out, h, _⟩ := sortStep_desc k _ (retained_readable C s k f hC)
      exact ⟨out, by rw [ho]; exact h⟩
    · obtain ⟨out, h, _⟩ := sortStep_asc k o ho _ (retained_readable C s k f hC)
      exact ⟨out, h⟩
  · obtain ⟨r, hr, ht⟩ := hr
    have hlen : C.length ≠ 0 := fun h0 => by
      rw [List.length_eq_zero.mp h0] at hr; cases hr
    have hm : matchesSearch s r = .error .typeError := by
      simp [matchesSearch, ht, toLowerCase]
    simp only [filteredAndSortedProblems, if_neg hlen, searchStep, if_pos hs,
      arrayFilter_error_of_mem _ C r hr hm]
  · obtain ⟨r, hr, hd⟩ := hr
    have hlen : C.length ≠ 0 := fun h0 => by
      rw [List.length_eq_zero.mp h0] at hr; cases hr
    have hm : matchesDifficulty f r = .error .typeError := by
      simp [matchesDifficulty, hd, toLowerCase]
    have hs' : ¬ s ≠ "" := by simpa using hs
    simp only [filteredAndSortedProblems, if_neg hlen, searchStep, if_neg hs', difficultyStep,
      if_pos hf, arrayFilter_error_of_mem _ C r hr hm]
  · have hs' : ¬ s ≠ "" := by simpa using hs
    have hf' : ¬ f ≠ "all" := by simpa using hf
    have hq : filteredAndSortedProblems C s k o f = sortStep k o C := by
      unfold filteredAndSortedProblems
      by_cases hlen : C.length = 0
      · rw [List.length_eq_zero.mp hlen]; rfl
      · simp only [if_neg hlen, searchStep, if_neg hs', difficultyStep, if_neg hf']
    rw [hq]
    by_cases ho : o = "desc"
    · obtain ⟨out, h, _⟩ := sortStep_desc k C (fun p _ => readable_of_ne_title k p hk)
      exact ⟨out, by rw [ho]; exact h⟩
    · obtain ⟨out, h, _⟩ := sortStep_asc k o ho C (fun p _ => readable_of_ne_title k p hk)
      exact ⟨out, h⟩

/-- Instances of C5, amended: the scenario collection, and records without a field. -/
theorem query_total_on_complete_witness :
    (∀ r ∈ scenario, r.complete = true) ∧
    (∃ out, filteredAndSortedProblems scenario "sum" "title" "asc" "easy" = .ok out) ∧
    filteredAndSortedProblems [{ mergeIntervals with Title := none }] "a" "title" "asc" "easy" =
      .error .typeError ∧
    filteredAndSortedProblems [{ mergeIntervals with Difficulty := none }] "" "title" "asc"
      "easy" = .error .typeError ∧
    (∃ out, filteredAndSortedProblems [{ mergeIntervals with Title := none }] "" "frequency"
      "asc" "all" = .ok out) :=
  ⟨by decide,
    (query_total_on_complete scenario "sum" "title" "asc" "easy").1 (by decide),
    (query_total_on_complete [{ mergeIntervals with Title := none }] "a" "title" "asc"
      "easy").2.1 (by decide) ⟨_, List.mem_singleton.mpr rfl, rfl⟩,
    (query_total_on_complete [{ mergeIntervals with Difficulty := none }] "" "title" "asc"
      "easy").2.2.1 rfl (by decide) ⟨_, List.mem_singleton.mpr rfl, rfl⟩,
    (query_total_on_complete [{ mergeIntervals with Title := none }] "" "frequency" "asc"
      "all").2.2.2 rfl rfl (by decide)⟩

/-- C7. Window mapping of the loader: `30` resolves the 30-day file, `90` the 3-month
file, `180` the 6-month file, and every other value, `9999` for instance, the 6-month file
as well. A load of an unrecognised window whose import succeeds therefore ends exactly
like a load of window `180`: the collection of the 6-month file, no error. -/
theorem snapshotFor_mapping (w : String) :
    snapshotFor "30" = .days30 ∧ snapshotFor "90" = .months3 ∧
    snapshotFor "180" = .months6 ∧ snapshotFor "9999" = .months6 ∧
    (w ≠ "30" → w ≠ "90" → snapshotFor w = .months6 ∧
      ∀ (importModule : Snapshot → Except String (List Problem)) (s : LoaderState)
        (D : List Problem), importModule .months6 = .ok D →
        (loadProblemsData importModule w s).problemsData = D ∧
        (loadProblemsData importModule w s).error = none ∧
        (loadProblemsData importModule w s).loading = false ∧
        loadProblemsData importModule w s = loadProblemsData importModule "180" s) := by
  refine ⟨by decide, by decide, by decide, by decide, fun h30 h90 => ?_⟩
  have hw : snapshotFor w = .months6 := by
    unfold snapshotFor
    rw [if_neg h30, if_neg h90]
    by_cases h180 : w = "180"
    · rw [if_pos h180]
    · rw [if_neg h180]
  have h180 : snapshotFor "180" = .months6 := by decide
  refine ⟨hw, fun importModule s D hD => ?_⟩
  simp [loadProblemsData, hw, h180, hD, finishLoad, startLoad]

/-- Instance of C7 at the window `9999`. -/
theorem snapshotFor_mapping_witness :
    "9999" ≠ "30" ∧ "9999" ≠ "90" ∧
    (loadProblemsData (fun _ => .ok scenario) "9999" initialState).problemsData = scenario ∧
    loadProblemsData (fun _ => .ok scenario) "9999" initialState =
      loadProblemsData (fun _ => .ok scenario) "180" initialState :=
  ⟨by decide, by decide,
    (((snapshotFor_mapping "9999").2.2.2.2 (by decide) (by decide)).2
      (fun _ => .ok scenario) initialState scenario rfl).1,
    (((snapshotFor_mapping "9999").2.2.2.2 (by decide) (by decide)).2
      (fun _ => .ok scenario) initialState scenario rfl).2.2.2⟩

/-- C9. Load failure handling. A load of window `w` whose import fails with message `m`
ends with `loading` false, the collection as it was before the load, and the error
`Failed to load <w> data: <m>`, which contains both `w` and `m`. A load whose import
succeeds ends with `loading` false, no error and the imported collection, whatever the
state before, so a load after a failure clears the error. -/
theorem load_failure_handling (importModule : Snapshot → Except String (List Problem))
    (w m : String) (s : LoaderState) (D : List Problem) :
    (importModule (snapshotFor w) = .error m →
      loadProblemsData importModule w s =
        { problemsData := s.problemsData, loading := false,
          error := some ("Failed to load " ++ w ++ " data: " ++ m) }) ∧
    w.data <:+: ("Failed to load " ++ w ++ " data: " ++ m).data ∧
    m.data <:+: ("Failed to load " ++ w ++ " data: " ++ m).data ∧
    (importModule (snapshotFor w) = .ok D →
      loadProblemsData importModule w s =
        { problemsData := D, loading := false, error := none }) := by
  refine ⟨fun h => ?_, ?_, ?_, fun h => ?_⟩
  · simp [loadProblemsData, h, finishLoad, startLoad]
  · refine ⟨"Failed to load ".data, (" data: " ++ m).data, ?_⟩
    simp [String.data_append]
  · refine ⟨("Failed to load " ++ w ++ " data: ").data, [], ?_⟩
    simp [String.data_append]
  · simp [loadProblemsData, h, finishLoad, startLoad]

/-- Instances of C9: a failed load of window `90`, then a successful load of window `30`. -/
theorem load_failure_handling_witness :
    loadProblemsData (fun _ => .error "Cannot find module") "90"
        { problemsData := scenario, loading := false, error := none } =
      { problemsData := scenario, loading := false,
        error := some "Failed to load 90 data: Cannot find module" } ∧
    loadProblemsData (fun _ => .ok scenario) "30"
        { problemsData := [], loading := false,
          error := some "Failed to load 90 data: Cannot find module" } =
      { problemsData := scenario, loading := false, error := none } :=
  ⟨(load_failure_handling (fun _ => .error "Cannot find module") "90" "Cannot find module"
      { problemsData := scenario, loading := false, error := none } []).1 rfl,
    (load_failure_handling (fun _ => .ok scenario) "30" ""
      { problemsData := [], loading := false,
        error := some "Failed to load 90 data: Cannot find module" } scenario).2.2.2 rfl⟩

/-- C10 does not hold of the comparator: on two records with the same key it returns `-1`
in both argument orders and under both directions, never `0`. -/
theorem compareFn_tie_not_zero :
    twoSum.Frequency = ({ mergeIntervals with Frequency := 80 } : Problem).Frequency ∧
    compareFn "frequency" "desc" twoSum { mergeIntervals with Frequency := 80 } = .ok (-1) ∧
    compareFn "frequency" "desc" { mergeIntervals with Frequency := 80 } twoSum = .ok (-1) ∧
    compareFn "frequency" "asc" twoSum { mergeIntervals with Frequency := 80 } = .ok (-1) ∧
    compareFn "frequency" "asc" { mergeIntervals with Frequency := 80 } twoSum = .ok (-1) ∧
    compareFn "title" "asc" twoSum twoSum = .ok (-1) := by
  decide

end Questionnaire
